import Mathlib

/-!
Verification of the configuration subsystem of the beads task manager.

The development shallowly embeds the line-based rewrite logic of
`SetIssuePrefix` (internal/config/config.go), a state model of
`SetIssuePrefix` and of `MigrateConfigToYAML`
(internal/storage/sqlite), and the layered option resolver built by
the initialization code.  File contents and string values are
represented as `List Char`; splitting and joining on the newline
character mirror the Go functions `strings.Split` and `strings.Join`.
-/

/-- The set of white-space runes recognized by the Go function
`unicode.IsSpace`, used by `strings.TrimSpace`. -/
def goIsSpace (c : Char) : Bool :=
  c = ' ' || c = '\t' || c = '\n' || c = '\x0b' || c = '\x0c' || c = '\r' ||
  c = '\u0085' || c = ' ' || c = ' ' ||
  (' ' ≤ c && c ≤ ' ') ||
  c = ' ' || c = ' ' || c = ' ' || c = ' ' || c = '　'

/-- Go `strings.TrimSpace`: drop white space from both ends. -/
def trimSpace (l : List Char) : List Char :=
  ((l.dropWhile goIsSpace).reverse.dropWhile goIsSpace).reverse

/-- One line matches when its trimmed text starts with `issue-prefix:` and is
not a comment, exactly the condition tested inside the loop of
`SetIssuePrefix` (config.go line 227). -/
def isPrefixLine (line : List Char) : Bool :=
  (("issue-prefix:").data).isPrefixOf (trimSpace line) &&
  !((("#").data).isPrefixOf (trimSpace line))

/-- One hexadecimal digit, used by the quoting fallback. -/
def hexDigit (n : Nat) : Char :=
  (("0123456789abcdef").data).getD n 'f'

/-- Escaping of one rune as performed by the Go verb `%q`
(`fmt.Sprintf("issue-prefix: %q", prefix)`, config.go line 228). -/
def goQuoteChar (c : Char) : List Char :=
  if c = '"' then ['\\', '"']
  else if c = '\\' then ['\\', '\\']
  else if c = '\n' then ['\\', 'n']
  else if c = '\t' then ['\\', 't']
  else if c = '\r' then ['\\', 'r']
  else if c = '\x07' then ['\\', 'a']
  else if c = '\x08' then ['\\', 'b']
  else if c = '\x0b' then ['\\', 'v']
  else if c = '\x0c' then ['\\', 'f']
  else if c.toNat < 32 || c.toNat = 127 then
    ['\\', 'x', hexDigit (c.toNat / 16), hexDigit (c.toNat % 16)]
  else [c]

/-- Body of the quoted form of a string. -/
def quoteBody : List Char → List Char
  | [] => []
  | c :: rest => goQuoteChar c ++ quoteBody rest

/-- Go `%q`: a double-quoted, escaped string literal. -/
def goQuote (s : List Char) : List Char :=
  '"' :: (quoteBody s ++ ['"'])

/-- The replacement line `issue-prefix: "<value>"` written by
`SetIssuePrefix` (config.go lines 228 and 237). -/
def newPrefixLine (p : List Char) : List Char :=
  (("issue-prefix: ").data) ++ goQuote p

/-- Go `strings.Split` on the newline separator. -/
def splitLines : List Char → List (List Char)
  | [] => [[]]
  | c :: rest =>
    if c = '\n' then [] :: splitLines rest
    else
      match splitLines rest with
      | [] => [[c]]
      | l :: ls => (c :: l) :: ls

/-- Go `strings.Join` on the newline separator. -/
def joinLines : List (List Char) → List Char
  | [] => []
  | [l] => l
  | l :: l2 :: ls => l ++ '\n' :: joinLines (l2 :: ls)

/-- The scan-and-replace loop of `SetIssuePrefix` (config.go lines 223-232):
rewrite the first matching line in place and stop; `none` when no line
matches. -/
def replaceLoop (q : List Char) : List (List Char) → Option (List (List Char))
  | [] => none
  | l :: ls =>
    if isPrefixLine l then some (q :: ls)
    else
      match replaceLoop q ls with
      | some ls2 => some (l :: ls2)
      | none => none

/-- The line list produced by `SetIssuePrefix` (config.go lines 218-241):
replace the first matching line, otherwise prepend the new line plus a
blank separator when the file already has lines, otherwise the new line
alone. -/
def setIssuePrefixLines (p : List Char) (lines : List (List Char)) :
    List (List Char) :=
  match replaceLoop (newPrefixLine p) lines with
  | some ls => ls
  | none =>
    match lines with
    | [] => [newPrefixLine p]
    | _ :: _ => newPrefixLine p :: [] :: lines

/-- The lines of the existing file content: Go code splits only non-empty
content and otherwise starts from the empty list (config.go lines 218-221). -/
def linesOf (content : List Char) : List (List Char) :=
  if content = [] then [] else splitLines content

/-- The full content transformation of `SetIssuePrefix`
(config.go lines 218-243). -/
def setIssuePrefixContent (p content : List Char) : List Char :=
  joinLines (setIssuePrefixLines p (linesOf content))

/-- Failure kinds surfaced by the embedded operations, one constructor per
`return fmt.Errorf(...)` site of the source. -/
inductive GoError where
  | emptyPrefix
  | getwdFailed
  | writeTempFailed
  | renameFailed
  | queryConfigFailed
  | queryIssuesFailed
deriving DecidableEq, Repr

/-- Injected environment failures for the fallible system calls used by
`SetIssuePrefix`: `os.Getwd`, `os.WriteFile` on the temp file and
`os.Rename`. -/
structure Faults where
  getwdFails : Bool
  writeFails : Bool
  renameFails : Bool
deriving DecidableEq, Repr

/-- The observable state touched by `SetIssuePrefix` and
`MigrateConfigToYAML`: whether the upward walk from the working directory
finds a `.beads` directory, the bytes of `config.yaml` (`none` when the
file is missing), the temp sibling file, and the issue-prefix value held
by the in-memory viper singleton (what `config.GetIssuePrefix` returns). -/
structure ConfigState where
  beadsDirExists : Bool
  configFile : Option (List Char)
  tmpFile : Option (List Char)
  resolvedIssuePrefix : List Char
deriving DecidableEq, Repr

/-- `SetIssuePrefix` (config.go lines 180-259): validate, locate the
`.beads` directory, read the existing bytes (a read error leaves the
content empty), rewrite the issue-prefix line, write a temp file, rename
it over `config.yaml`, and only then update the in-memory singleton.
Without a `.beads` directory only the in-memory value changes. -/
def SetIssuePrefix (p : List Char) (f : Faults) (s : ConfigState) :
    Except GoError Unit × ConfigState :=
  if p = [] then (Except.error GoError.emptyPrefix, s)
  else if f.getwdFails then (Except.error GoError.getwdFailed, s)
  else if !s.beadsDirExists then
    (Except.ok (), { s with resolvedIssuePrefix := p })
  else
    let content := s.configFile.getD []
    let newContent := setIssuePrefixContent p content
    if f.writeFails then (Except.error GoError.writeTempFailed, s)
    else if f.renameFails then
      (Except.error GoError.renameFailed, { s with tmpFile := none })
    else
      (Except.ok (),
        { s with configFile := some newContent, tmpFile := none,
                 resolvedIssuePrefix := p })

/-- Modelled from the spec: the identifier-utility collaborator
`utils.ExtractIssuePrefix` is not part of the given sources; the spec
describes it as deriving the prefix from an issue identifier, for
example `"old-prefix-42"` to `"old-prefix"`.  The model keeps everything
before the last hyphen and yields the whole identifier when no hyphen
occurs. -/
def ExtractIssuePrefix (id : List Char) : List Char :=
  if '-' ∈ id then ((id.reverse.dropWhile (fun c => c ≠ '-')).drop 1).reverse
  else id

/-- The view of the database queried by `MigrateConfigToYAML`: the legacy
settings row for the key `issue_prefix` (`none` models `sql.ErrNoRows`),
the earliest-created issue identifier, and an injected failure flag for
each of the two queries. -/
structure DBState where
  configRowError : Bool
  issuePrefixRow : Option (List Char)
  issueQueryError : Bool
  firstIssueId : Option (List Char)
deriving DecidableEq, Repr

/-- The best-effort write step of `MigrateConfigToYAML` (config_migration
lines 670-682): when a prefix was found, call `SetIssuePrefix` and swallow
its failure; the overall result is success either way. -/
def migrateWriteStep (dbPrefix : List Char) (f : Faults) (s : ConfigState) :
    Except GoError Unit × ConfigState :=
  if dbPrefix ≠ [] then (Except.ok (), (SetIssuePrefix dbPrefix f s).2)
  else (Except.ok (), s)

/-- `MigrateConfigToYAML` (config_migration lines 641-685): return at once
when the resolver already reports a prefix; otherwise read the legacy
settings row (`ErrNoRows` means empty, any other failure propagates),
fall back to the earliest issue identifier, and finally write through
`SetIssuePrefix` on a best-effort basis. -/
def MigrateConfigToYAML (db : DBState) (f : Faults) (s : ConfigState) :
    Except GoError Unit × ConfigState :=
  if s.resolvedIssuePrefix ≠ [] then (Except.ok (), s)
  else if db.configRowError then (Except.error GoError.queryConfigFailed, s)
  else
    let dbPrefix := db.issuePrefixRow.getD []
    if dbPrefix = [] then
      if db.issueQueryError then (Except.error GoError.queryIssuesFailed, s)
      else
        let firstIssueID := db.firstIssueId.getD []
        migrateWriteStep
          (if firstIssueID ≠ [] then ExtractIssuePrefix firstIssueID else [])
          f s
    else migrateWriteStep dbPrefix f s

/-- True exactly on the error results. -/
def isErr : Except GoError Unit → Bool
  | Except.error _ => true
  | Except.ok _ => false

example : setIssuePrefixContent (("bd").data) [] = (("issue-prefix: \"bd\"").data) := by decide

example :
    setIssuePrefixContent (("new").data) (("issue-prefix: \"old\"\njson: true\n").data) =
      (("issue-prefix: \"new\"\njson: true\n").data) := by decide

example :
    setIssuePrefixContent (("active").data) (("# issue-prefix: \"commented\"\njson: true\n").data) =
      (("issue-prefix: \"active\"\n\n# issue-prefix: \"commented\"\njson: true\n").data) := by decide

/-- A configuration value is either a string or a boolean, matching the two
kinds appearing in the `SetDefault` calls of config.go lines 77-93. -/
inductive GoValue where
  | s (v : List Char)
  | b (v : Bool)
deriving DecidableEq, Repr

/-- Association-list lookup, the model of a key search in a flat mapping. -/
def alookup (k : List Char) : List (List Char × α) → Option α
  | [] => none
  | (k2, v) :: rest => if k = k2 then some v else alookup k rest

/-- The process environment: the set environment variables. -/
structure OsEnv where
  vars : List (List Char × List Char)

/-- Look up one variable of the process environment. -/
def envLookup (e : OsEnv) (name : List Char) : Option (List Char) :=
  alookup name e.vars

/-- Upper-casing of one ASCII letter, as applied by the environment-name
derivation. -/
def goUpper (c : Char) : Char :=
  if 'a' ≤ c ∧ c ≤ 'z' then Char.ofNat (c.toNat - 32) else c

/-- The replacer installed at config.go line 73: hyphens and dots become
underscores. -/
def envReplace (c : Char) : Char :=
  if c = '-' then '_' else if c = '.' then '_' else c

/-- The environment-variable name bound to a key: the `BD` prefix of
config.go line 69 joined with the key, upper-cased, with the hyphen/dot
replacer applied. -/
def envKeyName (key : List Char) : List Char :=
  ((("BD_").data) ++ key).map (fun c => envReplace (goUpper c))

example : envKeyName (("no-daemon").data) = (("BD_NO_DAEMON").data) := by decide

/-- The default table installed by the initialization code, config.go
lines 77-93, values exactly as passed to `SetDefault`. -/
def defaultTable : List (List Char × GoValue) :=
  [((("json").data), GoValue.b false),
   ((("no-daemon").data), GoValue.b false),
   ((("no-auto-flush").data), GoValue.b false),
   ((("no-auto-import").data), GoValue.b false),
   ((("no-db").data), GoValue.b false),
   ((("db").data), GoValue.s []),
   ((("actor").data), GoValue.s []),
   ((("issue-prefix").data), GoValue.s []),
   ((("flush-debounce").data), GoValue.s (("30s").data)),
   ((("auto-start-daemon").data), GoValue.b true)]

/-- The two legacy unprefixed environment bindings of config.go
lines 88-89. -/
def legacyEnvBindings : List (List Char × List Char) :=
  [((("flush-debounce").data), (("BEADS_FLUSH_DEBOUNCE").data)),
   ((("auto-start-daemon").data), (("BEADS_AUTO_START_DAEMON").data))]

/-- The resolver after initialization: the explicit-override layer written
by `Set`, the process environment, and the parsed config-file mapping;
the default table and the legacy bindings are fixed by the source. -/
structure ResolverState where
  overrides : List (List Char × GoValue)
  env : OsEnv
  file : List (List Char × GoValue)

/-- Modelled from the spec: the layered lookup of the viper library behind
`GetString`, `GetBool` and `GetDuration` is not part of the given sources;
the spec fixes the precedence as defaults, then config file, then
environment, then explicit overrides, strongest last, with the automatic
`BD_` environment binding and the two legacy bindings. -/
def getRaw (st : ResolverState) (key : List Char) : Option GoValue :=
  match alookup key st.overrides with
  | some v => some v
  | none =>
    match envLookup st.env (envKeyName key) with
    | some sv => some (GoValue.s sv)
    | none =>
      match (alookup key legacyEnvBindings).bind (envLookup st.env) with
      | some sv => some (GoValue.s sv)
      | none =>
        match alookup key st.file with
        | some v => some v
        | none => alookup key defaultTable

/-- The resolver state built by `Initialize` (config.go lines 17-111):
no explicit overrides yet, the ambient environment, and the mapping read
from the first config file found (empty when none was found). -/
def InitializeResolver (env : OsEnv) (file : List (List Char × GoValue)) :
    ResolverState :=
  { overrides := [], env := env, file := file }

/-- Modelled from the spec: `GetString` returns the resolved value as a
string, never an error; a boolean renders as its Go text form. -/
def GetString (st : ResolverState) (key : List Char) : List Char :=
  match getRaw st key with
  | some (GoValue.s v) => v
  | some (GoValue.b v) => if v then ("true").data else ("false").data
  | none => []

/-- Modelled from the spec: `GetBool` returns the resolved boolean, with
the Go cast semantics on strings reduced to the true literals, and the
boolean zero value when the key is absent. -/
def GetBool (st : ResolverState) (key : List Char) : Bool :=
  match getRaw st key with
  | some (GoValue.b v) => v
  | some (GoValue.s v) =>
    v = ("true").data || v = ("1").data || v = ("t").data || v = ("T").data ||
    v = ("TRUE").data || v = ("True").data
  | none => false

/-- Digits of a decimal numeral to a number. -/
def digitsToNat : List Char → Option Nat
  | [] => none
  | l => l.foldl (fun acc c =>
      match acc with
      | none => none
      | some n => if '0' ≤ c ∧ c ≤ '9' then some (n * 10 + (c.toNat - 48)) else none)
      (some 0)

/-- Modelled from the spec: the duration cast behind `GetDuration`,
reduced to the second-suffixed numerals the configuration uses; the
result counts nanoseconds like the Go duration type, and an unparsable
value yields the zero duration. -/
def parseGoDuration (v : List Char) : Nat :=
  match v.reverse with
  | 's' :: rest =>
    match digitsToNat rest.reverse with
    | some n => n * 1000000000
    | none => 0
  | _ => 0

/-- Modelled from the spec: `GetDuration` resolves the value and casts it
to a duration, with the zero duration for absent or non-string values. -/
def GetDuration (st : ResolverState) (key : List Char) : Nat :=
  match getRaw st key with
  | some (GoValue.s v) => parseGoDuration v
  | some (GoValue.b _) => 0
  | none => 0

example : parseGoDuration (("30s").data) = 30000000000 := by decide

example :
    GetBool (InitializeResolver { vars := [] } []) (("json").data) = false := by decide

example :
    GetString
      (InitializeResolver { vars := [((("BD_JSON").data), (("yes").data))] }
        [((("json").data), GoValue.b false)])
      (("json").data) = (("yes").data) := by decide

/-! ### Lemmas about line splitting and joining -/

theorem splitLines_ne_nil (s : List Char) : splitLines s ≠ [] := by
  induction s with
  | nil => simp [splitLines]
  | cons c rest ih =>
    simp only [splitLines]
    split
    · simp
    · cases h : splitLines rest <;> simp

theorem not_mem_newline_splitLines (s : List Char) :
    ∀ l ∈ splitLines s, '\n' ∉ l := by
  induction s with
  | nil =>
    intro l hl
    simp [splitLines] at hl
    simp [hl]
  | cons c rest ih =>
    intro l hl
    simp only [splitLines] at hl
    by_cases hc : c = '\n'
    · rw [if_pos hc] at hl
      rcases List.mem_cons.mp hl with rfl | h
      · simp
      · exact ih l h
    · rw [if_neg hc] at hl
      cases h : splitLines rest with
      | nil => exact absurd h (splitLines_ne_nil rest)
      | cons l0 ls =>
        rw [h] at hl
        rcases List.mem_cons.mp hl with rfl | h1
        · intro hmem
          rcases List.mem_cons.mp hmem with h2 | h2
          · exact hc h2.symm
          · exact ih l0 (by rw [h]; exact List.mem_cons_self _ _) h2
        · exact ih l (by rw [h]; exact List.mem_cons_of_mem _ h1)

theorem splitLines_append_cons (l t : List Char) (h : '\n' ∉ l) :
    splitLines (l ++ '\n' :: t) = l :: splitLines t := by
  induction l with
  | nil => simp [splitLines]
  | cons c l ih =>
    have hc : ¬ c = '\n' := fun e => h (by rw [e]; exact List.mem_cons_self _ _)
    have h2 : '\n' ∉ l := fun m => h (List.mem_cons_of_mem _ m)
    rw [List.cons_append]
    simp only [splitLines, if_neg hc, ih h2]

theorem splitLines_eq_single (l : List Char) (h : '\n' ∉ l) :
    splitLines l = [l] := by
  induction l with
  | nil => rfl
  | cons c l ih =>
    have hc : ¬ c = '\n' := fun e => h (by rw [e]; exact List.mem_cons_self _ _)
    have h2 : '\n' ∉ l := fun m => h (List.mem_cons_of_mem _ m)
    simp only [splitLines, if_neg hc, ih h2]

theorem splitLines_joinLines (ls : List (List Char)) (h1 : ls ≠ [])
    (h2 : ∀ l ∈ ls, '\n' ∉ l) : splitLines (joinLines ls) = ls := by
  induction ls with
  | nil => exact absurd rfl h1
  | cons l rest ih =>
    cases rest with
    | nil => exact splitLines_eq_single l (h2 l (List.mem_cons_self _ _))
    | cons l2 rest2 =>
      show splitLines (l ++ '\n' :: joinLines (l2 :: rest2)) = _
      rw [splitLines_append_cons l _ (h2 l (List.mem_cons_self _ _))]
      rw [ih (by simp) (fun x hx => h2 x (List.mem_cons_of_mem _ hx))]

theorem joinLines_eq_nil_iff (ls : List (List Char)) :
    joinLines ls = [] ↔ ls = [] ∨ ls = [[]] := by
  match ls with
  | [] => simp [joinLines]
  | [l] => simp [joinLines]
  | l :: l2 :: rest => simp [joinLines]

/-! ### Lemmas about the quoted replacement line -/

theorem hexDigit_ne_newline (n : Nat) : hexDigit n ≠ '\n' := by
  unfold hexDigit
  rw [List.getD_eq_getElem?_getD]
  rcases h : (("0123456789abcdef").data)[n]? with _ | x
  · decide
  · have hx : x ∈ (("0123456789abcdef").data) := List.getElem?_mem h
    simp only [Option.getD_some]
    clear h
    revert x
    decide

set_option maxHeartbeats 4000000 in
theorem goQuoteChar_no_newline (c : Char) : '\n' ∉ goQuoteChar c := by
  unfold goQuoteChar
  split_ifs with h1 h2 h3 h4 h5 h6 h7 h8 h9 h10
  · decide
  · decide
  · decide
  · decide
  · decide
  · decide
  · decide
  · decide
  · decide
  · intro hm
    rcases List.mem_cons.mp hm with h | h
    · exact absurd h (by decide)
    rcases List.mem_cons.mp h with h | h
    · exact absurd h (by decide)
    rcases List.mem_cons.mp h with h | h
    · exact hexDigit_ne_newline _ h.symm
    rcases List.mem_cons.mp h with h | h
    · exact hexDigit_ne_newline _ h.symm
    · simp at h
  · intro hm
    rcases List.mem_cons.mp hm with h | h
    · exact h3 h.symm
    · simp at h

theorem quoteBody_no_newline (s : List Char) : '\n' ∉ quoteBody s := by
  induction s with
  | nil => simp [quoteBody]
  | cons c rest ih =>
    simp only [quoteBody, List.mem_append]
    rintro (h | h)
    · exact goQuoteChar_no_newline c h
    · exact ih h

theorem goQuote_no_newline (s : List Char) : '\n' ∉ goQuote s := by
  simp only [goQuote, List.mem_cons, List.mem_append]
  rintro (h | h | h | h)
  · exact absurd h (by decide)
  · exact quoteBody_no_newline s h
  · exact absurd h (by decide)
  · simp at h

theorem newPrefixLine_no_newline (p : List Char) : '\n' ∉ newPrefixLine p := by
  simp only [newPrefixLine, List.mem_append]
  rintro (h | h)
  · revert h; decide
  · exact goQuote_no_newline p h

theorem newPrefixLine_ne_nil (p : List Char) : newPrefixLine p ≠ [] := by
  intro h
  rw [newPrefixLine, List.append_eq_nil] at h
  exact absurd h.2 (by simp [goQuote])

/-! ### The written line always matches the scan -/

theorem trimSpace_eq_self (a b : Char) (m : List Char)
    (ha : goIsSpace a = false) (hb : goIsSpace b = false) :
    trimSpace (a :: (m ++ [b])) = a :: (m ++ [b]) := by
  unfold trimSpace
  rw [List.dropWhile_cons, if_neg (by simp [ha])]
  rw [List.reverse_cons, List.reverse_append]
  show ((([b] ++ m.reverse) ++ [a]).dropWhile goIsSpace).reverse = _
  rw [List.append_assoc, List.singleton_append, List.dropWhile_cons,
    if_neg (by simp [hb])]
  simp

theorem newPrefixLine_shape (p : List Char) :
    newPrefixLine p =
      'i' :: (((("ssue-prefix: ").data) ++ '"' :: quoteBody p) ++ ['"']) := by
  show (("issue-prefix: ").data) ++ '"' :: (quoteBody p ++ ['"']) = _
  rw [show (("issue-prefix: ").data) = 'i' :: (("ssue-prefix: ").data) from rfl]
  simp

theorem isPrefixLine_newPrefixLine (p : List Char) :
    isPrefixLine (newPrefixLine p) = true := by
  unfold isPrefixLine
  rw [newPrefixLine_shape, trimSpace_eq_self 'i' '"' _ (by decide) (by decide)]
  rw [← newPrefixLine_shape]
  apply Bool.and_eq_true_iff.mpr
  constructor
  · have hsplit : newPrefixLine p = (("issue-prefix:").data) ++ ' ' :: goQuote p := by
      show (("issue-prefix: ").data) ++ goQuote p = _
      rw [show (("issue-prefix: ").data) = (("issue-prefix:").data) ++ [' '] from rfl]
      simp
    exact List.isPrefixOf_iff_prefix.mpr (hsplit ▸ List.prefix_append _ _)
  · rw [Bool.not_eq_true', Bool.eq_false_iff]
    intro hcontra
    rw [List.isPrefixOf_iff_prefix, newPrefixLine_shape] at hcontra
    rcases List.cons_prefix_cons.mp hcontra with ⟨h1, _⟩
    exact absurd h1 (by decide)

/-! ### Lemmas about the replacement loop -/

theorem replaceLoop_eq_none_iff (q : List Char) (ls : List (List Char)) :
    replaceLoop q ls = none ↔ ∀ l ∈ ls, isPrefixLine l = false := by
  induction ls with
  | nil => simp [replaceLoop]
  | cons l rest ih =>
    constructor
    · intro h x hx
      by_cases hl : isPrefixLine l = true
      · rw [replaceLoop, if_pos hl] at h
        exact absurd h (by simp)
      · rcases List.mem_cons.mp hx with rfl | hx2
        · exact Bool.eq_false_iff.mpr hl
        · rw [replaceLoop, if_neg hl] at h
          cases hrr : replaceLoop q rest with
          | some ls2 => rw [hrr] at h; exact absurd h (by simp)
          | none => exact (ih.mp hrr) x hx2
    · intro h
      have hl : isPrefixLine l = false := h l (List.mem_cons_self l rest)
      have hr : replaceLoop q rest = none :=
        ih.mpr (fun x hx => h x (List.mem_cons_of_mem _ hx))
      rw [replaceLoop, if_neg (by simp [hl]), hr]

theorem replaceLoop_eq_some (q : List Char) (ls ls2 : List (List Char))
    (h : replaceLoop q ls = some ls2) :
    ∃ pre l post, ls = pre ++ l :: post ∧
      (∀ x ∈ pre, isPrefixLine x = false) ∧ isPrefixLine l = true ∧
      ls2 = pre ++ q :: post := by
  induction ls generalizing ls2 with
  | nil => exact absurd h (by simp [replaceLoop])
  | cons l rest ih =>
    by_cases hl : isPrefixLine l = true
    · rw [replaceLoop, if_pos hl] at h
      refine ⟨[], l, rest, rfl, by simp, hl, ?_⟩
      simpa using h.symm
    · rw [replaceLoop, if_neg hl] at h
      cases hrr : replaceLoop q rest with
      | none => rw [hrr] at h; exact absurd h (by simp)
      | some ls3 =>
        rw [hrr] at h
        rcases ih ls3 hrr with ⟨pre, lm, post, he, hpre, hlm, he2⟩
        refine ⟨l :: pre, lm, post, by rw [he]; rfl, ?_, hlm, ?_⟩
        · intro x hx
          rcases List.mem_cons.mp hx with rfl | hx2
          · exact Bool.eq_false_iff.mpr hl
          · exact hpre x hx2
        · have h4 : ls2 = l :: ls3 := by
            have := h
            simp at this
            exact this.symm
          rw [h4, he2]
          rfl

theorem replaceLoop_first_match (q : List Char) (pre post : List (List Char))
    (hpre : ∀ x ∈ pre, isPrefixLine x = false) (hq : isPrefixLine q = true) :
    replaceLoop q (pre ++ q :: post) = some (pre ++ q :: post) := by
  induction pre with
  | nil => simp [replaceLoop, hq]
  | cons x pre ih =>
    have hx : isPrefixLine x = false := hpre x (List.mem_cons_self _ _)
    have ih2 := ih (fun y hy => hpre y (List.mem_cons_of_mem _ hy))
    rw [List.cons_append, replaceLoop, if_neg (by simp [hx]), ih2]

/-! ### Lemmas about the produced line list -/

theorem setIssuePrefixLines_of_some (p : List Char)
    (lines ls : List (List Char))
    (h : replaceLoop (newPrefixLine p) lines = some ls) :
    setIssuePrefixLines p lines = ls := by
  unfold setIssuePrefixLines
  rw [h]

theorem setIssuePrefixLines_nil (p : List Char) :
    setIssuePrefixLines p [] = [newPrefixLine p] := rfl

theorem setIssuePrefixLines_of_none_cons (p a : List Char)
    (rest : List (List Char))
    (h : replaceLoop (newPrefixLine p) (a :: rest) = none) :
    setIssuePrefixLines p (a :: rest) = newPrefixLine p :: [] :: a :: rest := by
  unfold setIssuePrefixLines
  rw [h]

theorem newPrefixLine_mem_setIssuePrefixLines (p : List Char)
    (lines : List (List Char)) :
    newPrefixLine p ∈ setIssuePrefixLines p lines := by
  cases hr : replaceLoop (newPrefixLine p) lines with
  | some ls =>
    rw [setIssuePrefixLines_of_some p lines ls hr]
    rcases replaceLoop_eq_some _ _ _ hr with ⟨pre, l, post, _, _, _, h2⟩
    rw [h2]
    exact List.mem_append_right _ (List.mem_cons_self _ _)
  | none =>
    cases lines with
    | nil => rw [setIssuePrefixLines_nil]; simp
    | cons a rest =>
      rw [setIssuePrefixLines_of_none_cons p a rest hr]
      simp

theorem setIssuePrefixLines_no_newline (p : List Char)
    (lines : List (List Char)) (h : ∀ l ∈ lines, '\n' ∉ l) :
    ∀ l ∈ setIssuePrefixLines p lines, '\n' ∉ l := by
  intro l hl
  cases hr : replaceLoop (newPrefixLine p) lines with
  | some ls =>
    rw [setIssuePrefixLines_of_some p lines ls hr] at hl
    rcases replaceLoop_eq_some _ _ _ hr with ⟨pre, lm, post, he, _, _, h2⟩
    rw [h2] at hl
    rcases List.mem_append.mp hl with h3 | h3
    · exact h l (by rw [he]; exact List.mem_append_left _ h3)
    · rcases List.mem_cons.mp h3 with rfl | h4
      · exact newPrefixLine_no_newline p
      · exact h l
          (by rw [he]; exact List.mem_append_right _ (List.mem_cons_of_mem _ h4))
  | none =>
    cases lines with
    | nil =>
      rw [setIssuePrefixLines_nil] at hl
      simp at hl
      rw [hl]
      exact newPrefixLine_no_newline p
    | cons a rest =>
      rw [setIssuePrefixLines_of_none_cons p a rest hr] at hl
      rcases List.mem_cons.mp hl with rfl | h4
      · exact newPrefixLine_no_newline p
      · rcases List.mem_cons.mp h4 with rfl | h5
        · simp
        · exact h l h5

theorem setIssuePrefixLines_idem (p : List Char) (lines : List (List Char)) :
    setIssuePrefixLines p (setIssuePrefixLines p lines) =
      setIssuePrefixLines p lines := by
  cases hr : replaceLoop (newPrefixLine p) lines with
  | some ls =>
    rw [setIssuePrefixLines_of_some p lines ls hr]
    rcases replaceLoop_eq_some _ _ _ hr with ⟨pre, l, post, _, hpre, _, h2⟩
    rw [h2]
    exact setIssuePrefixLines_of_some p _ _
      (replaceLoop_first_match _ pre post hpre (isPrefixLine_newPrefixLine p))
  | none =>
    cases lines with
    | nil =>
      rw [setIssuePrefixLines_nil]
      exact setIssuePrefixLines_of_some p _ _
        (by rw [replaceLoop, if_pos (isPrefixLine_newPrefixLine p)])
    | cons a rest =>
      rw [setIssuePrefixLines_of_none_cons p a rest hr]
      exact setIssuePrefixLines_of_some p _ _
        (by rw [replaceLoop, if_pos (isPrefixLine_newPrefixLine p)])

theorem joinLines_setIssuePrefixLines_ne_nil (p : List Char)
    (lines : List (List Char)) :
    joinLines (setIssuePrefixLines p lines) ≠ [] := by
  intro h
  have hmem := newPrefixLine_mem_setIssuePrefixLines p lines
  rcases (joinLines_eq_nil_iff _).mp h with h1 | h1
  · rw [h1] at hmem
    simp at hmem
  · rw [h1] at hmem
    simp at hmem
    exact newPrefixLine_ne_nil p hmem

theorem linesOf_no_newline (c : List Char) : ∀ l ∈ linesOf c, '\n' ∉ l := by
  intro l hl
  unfold linesOf at hl
  by_cases hc : c = []
  · rw [if_pos hc] at hl
    simp at hl
  · rw [if_neg hc] at hl
    exact not_mem_newline_splitLines c l hl

theorem setIssuePrefixContent_idem_aux (p : List Char)
    (L : List (List Char)) (hL : ∀ l ∈ L, '\n' ∉ l) :
    joinLines (setIssuePrefixLines p
      (linesOf (joinLines (setIssuePrefixLines p L)))) =
      joinLines (setIssuePrefixLines p L) := by
  have hnl : ∀ l ∈ setIssuePrefixLines p L, '\n' ∉ l :=
    setIssuePrefixLines_no_newline p L hL
  have hne : setIssuePrefixLines p L ≠ [] := by
    intro h
    have hmem := newPrefixLine_mem_setIssuePrefixLines p L
    rw [h] at hmem
    simp at hmem
  have hjoin : joinLines (setIssuePrefixLines p L) ≠ [] :=
    joinLines_setIssuePrefixLines_ne_nil p L
  have hlines :
      linesOf (joinLines (setIssuePrefixLines p L)) =
        setIssuePrefixLines p L := by
    unfold linesOf
    rw [if_neg hjoin]
    exact splitLines_joinLines _ hne hnl
  rw [hlines, setIssuePrefixLines_idem]

theorem setIssuePrefixContent_idem (p c : List Char) :
    setIssuePrefixContent p (setIssuePrefixContent p c) =
      setIssuePrefixContent p c := by
  unfold setIssuePrefixContent
  exact setIssuePrefixContent_idem_aux p (linesOf c) (linesOf_no_newline c)

theorem migrateWriteStep_ok (dbp : List Char) (f : Faults) (s : ConfigState) :
    isErr (migrateWriteStep dbp f s).1 = false := by
  unfold migrateWriteStep
  split <;> rfl

/-! ### The claims -/

/-- C1: whenever the resolver already reports a non-empty issue prefix,
`MigrateConfigToYAML` returns success immediately and the whole
configuration state, the config-file bytes included, is unchanged. -/
theorem claim_C1_already_set_noop (db : DBState) (f : Faults)
    (s : ConfigState) (h : s.resolvedIssuePrefix ≠ []) :
    MigrateConfigToYAML db f s = (Except.ok (), s) := by
  unfold MigrateConfigToYAML
  rw [if_pos h]

theorem claim_C1_witness :
    (("existing").data ≠ ([] : List Char) ∧
      MigrateConfigToYAML
        ⟨false, some (("db-prefix").data), false, none⟩
        ⟨false, false, false⟩
        ⟨true, some (("issue-prefix: \"existing\"").data), none,
          (("existing").data)⟩ =
      (Except.ok (),
        ⟨true, some (("issue-prefix: \"existing\"").data), none,
          (("existing").data)⟩)) :=
  ⟨by decide,
    claim_C1_already_set_noop
      ⟨false, some (("db-prefix").data), false, none⟩
      ⟨false, false, false⟩
      ⟨true, some (("issue-prefix: \"existing\"").data), none,
        (("existing").data)⟩
      (by decide)⟩

/-- C2: calling `SetIssuePrefix` twice with the same non-empty value is
idempotent; the config-file bytes after the second call are identical to
the bytes after the first, for every starting state and fault pattern. -/
theorem claim_C2_idempotent (p : List Char) (hp : p ≠ []) (f : Faults)
    (s : ConfigState) :
    (SetIssuePrefix p f (SetIssuePrefix p f s).2).2.configFile =
      (SetIssuePrefix p f s).2.configFile := by
  by_cases hg : f.getwdFails = true
  · simp [SetIssuePrefix, hp, hg]
  · by_cases hb : s.beadsDirExists = true
    · by_cases hw : f.writeFails = true
      · simp [SetIssuePrefix, hp, hg, hb, hw]
      · by_cases hr : f.renameFails = true
        · simp [SetIssuePrefix, hp, hg, hb, hw, hr]
        · simp [SetIssuePrefix, hp, hg, hb, hw, hr, setIssuePrefixContent_idem]
    · simp [SetIssuePrefix, hp, hg, hb]

theorem claim_C2_witness :
    (("bd").data ≠ ([] : List Char) ∧
      (SetIssuePrefix (("bd").data) ⟨false, false, false⟩
        (SetIssuePrefix (("bd").data) ⟨false, false, false⟩
          ⟨true, some (("json: true").data), none, []⟩).2).2.configFile =
      (SetIssuePrefix (("bd").data) ⟨false, false, false⟩
        ⟨true, some (("json: true").data), none, []⟩).2.configFile) :=
  ⟨by decide,
    claim_C2_idempotent (("bd").data) (by decide) ⟨false, false, false⟩
      ⟨true, some (("json: true").data), none, []⟩⟩

/-- C4: a commented-out declaration is never treated as a match; on the
given input the rewrite prepends a fresh `issue-prefix: "active"` line and
keeps the comment line unchanged. -/
theorem claim_C4_commented_untouched :
    setIssuePrefixContent (("active").data)
        (("# issue-prefix: \"commented\"\njson: true\n").data) =
      (("issue-prefix: \"active\"\n\n# issue-prefix: \"commented\"\njson: true\n").data) ∧
    (("issue-prefix: \"active\"").data) ∈
      splitLines (setIssuePrefixContent (("active").data)
        (("# issue-prefix: \"commented\"\njson: true\n").data)) ∧
    (("# issue-prefix: \"commented\"").data) ∈
      splitLines (setIssuePrefixContent (("active").data)
        (("# issue-prefix: \"commented\"\njson: true\n").data)) := by
  refine ⟨by decide, by decide, by decide⟩

/-- C5: `MigrateConfigToYAML` fails exactly when a database query made by
it fails with an error other than no-rows: the settings-row query, or the
earliest-issue query that is only reached when the settings row was empty
or absent; a failing `SetIssuePrefix` write never makes it fail. -/
theorem claim_C5_error_characterization (db : DBState) (f : Faults)
    (s : ConfigState) :
    isErr (MigrateConfigToYAML db f s).1 = true ↔
      (s.resolvedIssuePrefix = [] ∧
        (db.configRowError = true ∨
          (db.issuePrefixRow.getD [] = [] ∧ db.issueQueryError = true))) := by
  by_cases h1 : s.resolvedIssuePrefix = []
  · by_cases h2 : db.configRowError = true
    · simp [MigrateConfigToYAML, isErr, h1, h2]
    · by_cases h3 : db.issuePrefixRow.getD [] = []
      · by_cases h4 : db.issueQueryError = true
        · simp [MigrateConfigToYAML, isErr, h1, h2, h3, h4]
        · simp [MigrateConfigToYAML, h1, h2, h3, h4, migrateWriteStep_ok]
      · simp [MigrateConfigToYAML, h1, h2, h3, migrateWriteStep_ok]
  · simp [MigrateConfigToYAML, isErr, h1]

/-- C8: the empty prefix is rejected with the validation error for every
fault pattern and every surrounding state, which is returned unchanged:
the failure happens before any file access. -/
theorem claim_C8_empty_validation (f : Faults) (s : ConfigState) :
    SetIssuePrefix [] f s = (Except.error GoError.emptyPrefix, s) := by
  unfold SetIssuePrefix
  rw [if_pos rfl]

/-- C10: whenever `SetIssuePrefix` returns an error, the in-memory
issue-prefix value of the singleton is unchanged; it is only updated
after a successful rename or in the fileless path, which both succeed. -/
theorem claim_C10_memory_unchanged_on_error (p : List Char) (f : Faults)
    (s : ConfigState) (h : isErr (SetIssuePrefix p f s).1 = true) :
    (SetIssuePrefix p f s).2.resolvedIssuePrefix = s.resolvedIssuePrefix := by
  by_cases hp : p = []
  · simp [SetIssuePrefix, hp]
  · by_cases hg : f.getwdFails = true
    · simp [SetIssuePrefix, hp, hg]
    · by_cases hb : s.beadsDirExists = true
      · by_cases hw : f.writeFails = true
        · simp [SetIssuePrefix, hp, hg, hb, hw]
        · by_cases hr : f.renameFails = true
          · simp [SetIssuePrefix, hp, hg, hb, hw, hr]
          · exfalso
            simp [SetIssuePrefix, isErr, hp, hg, hb, hw, hr] at h
      · exfalso
        simp [SetIssuePrefix, isErr, hp, hg, hb] at h

theorem claim_C10_witness :
    (isErr (SetIssuePrefix (("bd").data) ⟨false, true, false⟩
        ⟨true, none, none, (("keep").data)⟩).1 = true ∧
      (SetIssuePrefix (("bd").data) ⟨false, true, false⟩
        ⟨true, none, none, (("keep").data)⟩).2.resolvedIssuePrefix =
        (("keep").data)) :=
  ⟨by decide,
    claim_C10_memory_unchanged_on_error (("bd").data) ⟨false, true, false⟩
      ⟨true, none, none, (("keep").data)⟩ (by decide)⟩

/-- C3 counterexample: on the empty file content the code writes exactly
the new line with no blank separator; under either reading of prepending
`issue-prefix: "<p>"` plus a blank separator above the (empty) existing
content the output would carry a trailing newline, so the claim as stated
fails at the empty content. -/
theorem claim_C3_counterexample :
    setIssuePrefixContent (("bd").data) [] = newPrefixLine (("bd").data) ∧
    setIssuePrefixContent (("bd").data) [] ≠
      joinLines [newPrefixLine (("bd").data), []] ∧
    setIssuePrefixContent (("bd").data) [] ≠
      joinLines [newPrefixLine (("bd").data), [], []] := by
  refine ⟨by decide, by decide, by decide⟩

/-- C3 amended: for a non-empty prefix, either the first matching line is
rewritten in place with every other line kept verbatim in order, or no
line matches and the new line plus a blank separator is prepended above
the existing non-empty content, while an empty content yields exactly the
new line. -/
theorem claim_C3_frame (p c : List Char) (hp : p ≠ []) :
    (∃ pre l post,
        linesOf c = pre ++ l :: post ∧
        (∀ x ∈ pre, isPrefixLine x = false) ∧ isPrefixLine l = true ∧
        setIssuePrefixContent p c = joinLines (pre ++ newPrefixLine p :: post)) ∨
      ((∀ l ∈ linesOf c, isPrefixLine l = false) ∧
        setIssuePrefixContent p c =
          (if c = [] then newPrefixLine p
           else joinLines (newPrefixLine p :: [] :: linesOf c))) := by
  cases hr : replaceLoop (newPrefixLine p) (linesOf c) with
  | some ls =>
    left
    rcases replaceLoop_eq_some _ _ _ hr with ⟨pre, l, post, he, hpre, hl, h2⟩
    refine ⟨pre, l, post, he, hpre, hl, ?_⟩
    unfold setIssuePrefixContent
    rw [setIssuePrefixLines_of_some p _ _ hr, h2]
  | none =>
    right
    refine ⟨(replaceLoop_eq_none_iff _ _).mp hr, ?_⟩
    unfold setIssuePrefixContent
    by_cases hc : c = []
    · rw [if_pos hc]
      have hl0 : linesOf c = [] := by rw [hc]; rfl
      rw [hl0, setIssuePrefixLines_nil]
      rfl
    · rw [if_neg hc]
      have hne : linesOf c ≠ [] := by
        unfold linesOf
        rw [if_neg hc]
        exact splitLines_ne_nil c
      cases hl2 : linesOf c with
      | nil => exact absurd hl2 hne
      | cons a rest =>
        rw [hl2] at hr
        rw [setIssuePrefixLines_of_none_cons p a rest hr]

theorem claim_C3_witness :
    (("bd").data ≠ ([] : List Char) ∧
      ((∃ pre l post,
          linesOf (("json: true").data) = pre ++ l :: post ∧
          (∀ x ∈ pre, isPrefixLine x = false) ∧ isPrefixLine l = true ∧
          setIssuePrefixContent (("bd").data) (("json: true").data) =
            joinLines (pre ++ newPrefixLine (("bd").data) :: post)) ∨
        ((∀ l ∈ linesOf (("json: true").data), isPrefixLine l = false) ∧
          setIssuePrefixContent (("bd").data) (("json: true").data) =
            (if (("json: true").data) = ([] : List Char) then
              newPrefixLine (("bd").data)
             else
              joinLines (newPrefixLine (("bd").data) :: [] ::
                linesOf (("json: true").data)))))) :=
  ⟨by decide, claim_C3_frame (("bd").data) (("json: true").data) (by decide)⟩

/-- C9: when at least two distinct lines match the scan condition, only
the first is rewritten; every line before it and every line after it,
the later matching lines included, stays verbatim in order. -/
theorem claim_C9_first_only (p c : List Char) (hp : p ≠ [])
    (hcount : 2 ≤ (linesOf c).countP isPrefixLine) :
    ∃ pre l post,
      linesOf c = pre ++ l :: post ∧
      (∀ x ∈ pre, isPrefixLine x = false) ∧ isPrefixLine l = true ∧
      1 ≤ post.countP isPrefixLine ∧
      setIssuePrefixContent p c = joinLines (pre ++ newPrefixLine p :: post) := by
  cases hr : replaceLoop (newPrefixLine p) (linesOf c) with
  | none =>
    exfalso
    have hall := (replaceLoop_eq_none_iff _ _).mp hr
    have hzero : (linesOf c).countP isPrefixLine = 0 := by
      rw [List.countP_eq_zero]
      intro a ha
      simp [hall a ha]
    omega
  | some ls =>
    rcases replaceLoop_eq_some _ _ _ hr with ⟨pre, l, post, he, hpre, hl, h2⟩
    refine ⟨pre, l, post, he, hpre, hl, ?_, ?_⟩
    · have h5 : (linesOf c).countP isPrefixLine =
          pre.countP isPrefixLine + (l :: post).countP isPrefixLine := by
        rw [he, List.countP_append]
      have h6 : (l :: post).countP isPrefixLine =
          post.countP isPrefixLine + 1 := by
        rw [List.countP_cons, hl]
        simp
      have h7 : pre.countP isPrefixLine = 0 := by
        rw [List.countP_eq_zero]
        intro a ha
        simp [hpre a ha]
      omega
    · unfold setIssuePrefixContent
      rw [setIssuePrefixLines_of_some p _ _ hr, h2]

theorem claim_C9_witness :
    (("new").data ≠ ([] : List Char) ∧
      2 ≤ (linesOf (("issue-prefix: \"a\"\nissue-prefix: \"b\"").data)).countP
            isPrefixLine ∧
      (∃ pre l post,
        linesOf (("issue-prefix: \"a\"\nissue-prefix: \"b\"").data) =
          pre ++ l :: post ∧
        (∀ x ∈ pre, isPrefixLine x = false) ∧ isPrefixLine l = true ∧
        1 ≤ post.countP isPrefixLine ∧
        setIssuePrefixContent (("new").data)
            (("issue-prefix: \"a\"\nissue-prefix: \"b\"").data) =
          joinLines (pre ++ newPrefixLine (("new").data) :: post))) :=
  ⟨by decide, by decide,
    claim_C9_first_only (("new").data)
      (("issue-prefix: \"a\"\nissue-prefix: \"b\"").data)
      (by decide) (by decide)⟩

theorem getRaw_env_hit (st : ResolverState) (key v : List Char)
    (hov : st.overrides = [])
    (h : envLookup st.env (envKeyName key) = some v) :
    getRaw st key = some (GoValue.s v) := by
  unfold getRaw
  rw [hov, h]
  rfl

/-- C6: an environment variable always wins: whenever the variable derived
from a key (the `BD_` prefix with the hyphen/dot replacement) is set, the
resolver built by the initialization code returns exactly its value, for
every key, every value and every config-file mapping, conflicting or not. -/
theorem claim_C6_env_overrides (key v : List Char) (env : OsEnv)
    (file : List (List Char × GoValue))
    (h : envLookup env (envKeyName key) = some v) :
    GetString (InitializeResolver env file) key = v := by
  unfold GetString
  rw [getRaw_env_hit (InitializeResolver env file) key v rfl h]

theorem claim_C6_witness :
    (envLookup ⟨[((("BD_JSON").data), (("yes").data))]⟩
        (envKeyName (("json").data)) = some (("yes").data) ∧
      GetString
        (InitializeResolver ⟨[((("BD_JSON").data), (("yes").data))]⟩
          [((("json").data), GoValue.b false)])
        (("json").data) = (("yes").data)) :=
  ⟨by decide,
    claim_C6_env_overrides (("json").data) (("yes").data)
      ⟨[((("BD_JSON").data), (("yes").data))]⟩
      [((("json").data), GoValue.b false)]
      (by decide)⟩

/-- The environment-variable names consulted for the ten named options:
the derived `BD_` names and the two legacy unprefixed names. -/
def bdEnvNames : List (List Char) :=
  [envKeyName (("json").data), envKeyName (("no-daemon").data),
   envKeyName (("no-auto-flush").data), envKeyName (("no-auto-import").data),
   envKeyName (("no-db").data), envKeyName (("db").data),
   envKeyName (("actor").data), envKeyName (("issue-prefix").data),
   envKeyName (("flush-debounce").data),
   envKeyName (("auto-start-daemon").data),
   (("BEADS_FLUSH_DEBOUNCE").data), (("BEADS_AUTO_START_DAEMON").data)]

theorem getRaw_all_miss (st : ResolverState) (key : List Char)
    (hov : st.overrides = []) (hfile : st.file = [])
    (h1 : envLookup st.env (envKeyName key) = none)
    (h2 : (alookup key legacyEnvBindings).bind (envLookup st.env) = none) :
    getRaw st key = alookup key defaultTable := by
  unfold getRaw
  rw [hov, h1, h2, hfile]
  rfl

/-- C7: with no config file and none of the consulted environment
variables set, every key of the default table resolves to exactly its
documented default. -/
theorem claim_C7_defaults (env : OsEnv)
    (h : ∀ n ∈ bdEnvNames, envLookup env n = none) :
    GetBool (InitializeResolver env []) (("json").data) = false ∧
    GetBool (InitializeResolver env []) (("no-daemon").data) = false ∧
    GetBool (InitializeResolver env []) (("no-auto-flush").data) = false ∧
    GetBool (InitializeResolver env []) (("no-auto-import").data) = false ∧
    GetBool (InitializeResolver env []) (("no-db").data) = false ∧
    GetString (InitializeResolver env []) (("db").data) = [] ∧
    GetString (InitializeResolver env []) (("actor").data) = [] ∧
    GetString (InitializeResolver env []) (("issue-prefix").data) = [] ∧
    GetDuration (InitializeResolver env []) (("flush-debounce").data) =
      30000000000 ∧
    GetBool (InitializeResolver env []) (("auto-start-daemon").data) = true := by
  have base : ∀ key : List Char, envKeyName key ∈ bdEnvNames →
      (alookup key legacyEnvBindings).bind (envLookup env) = none →
      getRaw (InitializeResolver env []) key = alookup key defaultTable :=
    fun key hk hleg => getRaw_all_miss _ _ rfl rfl (h _ hk) hleg
  refine ⟨?_, ?_, ?_, ?_, ?_, ?_, ?_, ?_, ?_, ?_⟩
  · unfold GetBool
    rw [base (("json").data) (by decide) (by rfl)]
    decide
  · unfold GetBool
    rw [base (("no-daemon").data) (by decide) (by rfl)]
    decide
  · unfold GetBool
    rw [base (("no-auto-flush").data) (by decide) (by rfl)]
    decide
  · unfold GetBool
    rw [base (("no-auto-import").data) (by decide) (by rfl)]
    decide
  · unfold GetBool
    rw [base (("no-db").data) (by decide) (by rfl)]
    decide
  · unfold GetString
    rw [base (("db").data) (by decide) (by rfl)]
    decide
  · unfold GetString
    rw [base (("actor").data) (by decide) (by rfl)]
    decide
  · unfold GetString
    rw [base (("issue-prefix").data) (by decide) (by rfl)]
    decide
  · unfold GetDuration
    rw [base (("flush-debounce").data) (by decide)
      (by
        rw [show alookup (("flush-debounce").data) legacyEnvBindings =
            some (("BEADS_FLUSH_DEBOUNCE").data) from by decide]
        exact h (("BEADS_FLUSH_DEBOUNCE").data) (by decide))]
    decide
  · unfold GetBool
    rw [base (("auto-start-daemon").data) (by decide)
      (by
        rw [show alookup (("auto-start-daemon").data) legacyEnvBindings =
            some (("BEADS_AUTO_START_DAEMON").data) from by decide]
        exact h (("BEADS_AUTO_START_DAEMON").data) (by decide))]
    decide

theorem claim_C7_witness :
    ((∀ n ∈ bdEnvNames, envLookup ⟨[]⟩ n = none) ∧
      (GetBool (InitializeResolver ⟨[]⟩ []) (("json").data) = false ∧
       GetBool (InitializeResolver ⟨[]⟩ []) (("no-daemon").data) = false ∧
       GetBool (InitializeResolver ⟨[]⟩ []) (("no-auto-flush").data) = false ∧
       GetBool (InitializeResolver ⟨[]⟩ []) (("no-auto-import").data) = false ∧
       GetBool (InitializeResolver ⟨[]⟩ []) (("no-db").data) = false ∧
       GetString (InitializeResolver ⟨[]⟩ []) (("db").data) = [] ∧
       GetString (InitializeResolver ⟨[]⟩ []) (("actor").data) = [] ∧
       GetString (InitializeResolver ⟨[]⟩ []) (("issue-prefix").data) = [] ∧
       GetDuration (InitializeResolver ⟨[]⟩ []) (("flush-debounce").data) =
         30000000000 ∧
       GetBool (InitializeResolver ⟨[]⟩ []) (("auto-start-daemon").data) =
         true)) :=
  ⟨by decide, claim_C7_defaults ⟨[]⟩ (by decide)⟩
